import Mathlib

/-!
# NeuroTunes core — shallow embedding and verification

Embedding of the two core components of the NeuroTunes repository:

* the persistence facade `DDB` in `src/db.py` (upsert_user,
  put_recommendations, get_recommendations, log_event, put_song,
  list_songs), modelled with explicit state passing for the Firestore
  collections and an explicit `Except` outcome for each store call
  (`raise GoogleAPIError` becomes `Except.error`);
* the playlist allocator `get_recommended_playlist_for_user` in
  `src/general_user.py`, a pure function over the caregiver
  recommendations mapping and the in-memory `MELODY_DATABASE` catalog.

Python `float` scores are modelled as rationals (`ℚ`); Python's
`round` (round-half-to-even) is modelled by `pyRound`, and Python's
slice `l[:n]` (including negative `n`) by `pySliceTo`.
-/

/-- `GoogleAPIError` raised by the Firestore client (`google.api_core.exceptions`). -/
inductive GoogleAPIError where
  | mk (msg : String)
deriving DecidableEq, Repr

/-- A Firestore field value (string or integer payloads suffice for the
documents this repository writes and reads). -/
inductive FVal where
  | s (v : String)
  | i (v : Int)
deriving DecidableEq, Repr

/-- A Firestore document as a field map (Python `dict`), keyed by field name. -/
abbrev Fields := List (String × FVal)

/-- First-match field lookup in a document (`dict` access). -/
def fieldsLookup (d : Fields) (k : String) : Option FVal :=
  (d.find? (fun p => p.1 = k)).map (fun p => p.2)

/-- Python `dict.setdefault(k, v)`: insert `k ↦ v` only when `k` is absent. -/
def setdefault (d : Fields) (k : String) (v : FVal) : Fields :=
  if (d.find? (fun p => p.1 = k)).isSome then d else d ++ [(k, v)]

/-- Python `dict` update of one key (used for the `{"song_id": sid, **data}` literal):
overwrite the key in place when present, append otherwise. -/
def pyDictUpdate (d : Fields) (kv : String × FVal) : Fields :=
  if (d.find? (fun p => p.1 = kv.1)).isSome then
    d.map (fun p => if p.1 = kv.1 then kv else p)
  else d ++ [kv]

/-- One `{category, score}` entry of a caregiver recommendation list
(`r['category']`, `r['score']`); scores are Python numbers, modelled in `ℚ`
(the `r.get('score') or 0.0` guard is the identity once a number is present,
with `null` collapsed to `0`). -/
structure RankedItem where
  category : String
  score : ℚ
deriving DecidableEq, Repr

/-- Caregiver cognitive scores: an arbitrary string→number mapping. -/
abbrev CogScores := List (String × ℚ)

/-- Event payload: an arbitrary string→value mapping. -/
abbrev EventPayload := List (String × String)

/-- The User document written by `DDB.upsert_user`. -/
structure UserDoc where
  user_email : String
  name : String
  updated_at : Int
deriving DecidableEq, Repr

/-- The Recommendation document written by `DDB.put_recommendations`;
`cognitive_scores = none` models the field being absent from the document. -/
structure RecDoc where
  user_email : String
  updated_at : Int
  categories : List RankedItem
  cognitive_scores : Option CogScores
deriving DecidableEq, Repr

/-- An Event document appended by `DDB.log_event`. -/
structure EventDoc where
  user_email : String
  ts : Int
  event_type : String
  payload : EventPayload
deriving DecidableEq, Repr

/-- The Users collection: document id = user email. -/
abbrev UsersCol := String → Option UserDoc

/-- The Recommendations collection: document id = user email. -/
abbrev RecsCol := String → Option RecDoc

/-- The Songs collection in store-stream order: (document id, fields). -/
abbrev SongsCol := List (String × Fields)

/-- Keyed document write into a keyed collection. -/
def mapSet {α : Type} (m : String → Option α) (k : String) (v : α) :
    String → Option α :=
  fun q => if q = k then some v else m q

/-- `DDB.upsert_user(email, name)`: empty email is a no-op returning `False`;
otherwise merge-set `{user_email, name or "User", updated_at}` on the Users
document keyed by email (the document carries exactly the three written
fields, so the merge write is a set of those fields).  A `GoogleAPIError`
from the store call is re-raised (`raise`), modelled by propagating
`Except.error`.  The `name` argument is nullable (`name or "User"`). -/
def upsert_user (email : String) (name : Option String) (nowMs : Int)
    (setOutcome : Except GoogleAPIError Unit) (users : UsersCol) :
    Except GoogleAPIError (Bool × UsersCol) :=
  if email = "" then .ok (false, users)
  else
    match setOutcome with
    | .ok _ =>
        let writtenName : String :=
          match name with
          | none => "User"
          | some s => if s = "" then "User" else s
        .ok (true, mapSet users email
          { user_email := email, name := writtenName, updated_at := nowMs })
    | .error e => .error e

/-- `DDB.put_recommendations(email, categories, cognitive_scores)`: empty
email is a no-op returning `False`; otherwise a full (non-merge) `set` of
`{user_email, updated_at, categories or [], cognitive_scores?}` on the
Recommendations document keyed by email, replacing any prior document.
Store errors are re-raised. -/
def put_recommendations (email : String) (categories : Option (List RankedItem))
    (cognitive_scores : Option CogScores) (nowMs : Int)
    (setOutcome : Except GoogleAPIError Unit) (recs : RecsCol) :
    Except GoogleAPIError (Bool × RecsCol) :=
  if email = "" then .ok (false, recs)
  else
    match setOutcome with
    | .ok _ =>
        .ok (true, mapSet recs email
          { user_email := email, updated_at := nowMs,
            categories := categories.getD [],
            cognitive_scores := cognitive_scores })
    | .error e => .error e

/-- `DDB.get_recommendations(email)`: `None` on empty email; otherwise the
document if it exists, else `None`.  Store errors are re-raised. -/
def get_recommendations (email : String)
    (getOutcome : Except GoogleAPIError Unit) (recs : RecsCol) :
    Except GoogleAPIError (Option RecDoc) :=
  if email = "" then .ok none
  else
    match getOutcome with
    | .ok _ => .ok (recs email)
    | .error e => .error e

/-- `DDB.log_event(email, event_type, payload)`: empty email is a no-op
returning `False`; otherwise append an auto-id Event document
`{user_email, ts, event_type, payload or {}}`.  Store errors are re-raised. -/
def log_event (email : String) (event_type : String)
    (payload : Option EventPayload) (nowMs : Int)
    (addOutcome : Except GoogleAPIError Unit) (events : List EventDoc) :
    Except GoogleAPIError (Bool × List EventDoc) :=
  if email = "" then .ok (false, events)
  else
    match addOutcome with
    | .ok _ =>
        .ok (true, events ++ [EventDoc.mk email nowMs event_type (payload.getD [])])
    | .error e => .error e

/-- The document written by `DDB.put_song`: `{"song_id": song_id, **data}`. -/
def putSongDoc (song_id : String) (data : Fields) : Fields :=
  data.foldl pyDictUpdate [("song_id", FVal.s song_id)]

/-- Keyed write into the Songs collection: replace in place when the id
exists, append otherwise (stream order of other documents is unchanged). -/
def setSongDoc (songs : SongsCol) (song_id : String) (doc : Fields) : SongsCol :=
  if (songs.find? (fun p => p.1 = song_id)).isSome then
    songs.map (fun p => if p.1 = song_id then (song_id, doc) else p)
  else songs ++ [(song_id, doc)]

/-- `DDB.put_song(song_id, data)`: empty id is a no-op returning `False`;
otherwise set `{"song_id": song_id, **data}` keyed by `song_id`.
Store errors are re-raised. -/
def put_song (song_id : String) (data : Fields)
    (setOutcome : Except GoogleAPIError Unit) (songs : SongsCol) :
    Except GoogleAPIError (Bool × SongsCol) :=
  if song_id = "" then .ok (false, songs)
  else
    match setOutcome with
    | .ok _ => .ok (true, setSongDoc songs song_id (putSongDoc song_id data))
    | .error e => .error e

/-- The stream produced by `query.stream()` after the optional store-side
category filter; `if category:` treats `None` and `""` as no filter. -/
def matchingSongs (category : Option String) (songs : SongsCol) : SongsCol :=
  match category with
  | none => songs
  | some c =>
      if c = "" then songs
      else songs.filter (fun p => fieldsLookup p.2 "category" = some (FVal.s c))

/-- The decoration applied to each streamed document:
`data.setdefault('song_id', doc.id); data.setdefault('id', doc.id)`. -/
def decorateSong (docId : String) (data : Fields) : Fields :=
  setdefault (setdefault data "song_id" (FVal.s docId)) "id" (FVal.s docId)

/-- The early-stop test `if limit and len(items) >= limit`: `None` and `0`
are falsy, so they never stop the stream. -/
def pyLimitHit (limit : Option Int) (n : Nat) : Bool :=
  match limit with
  | none => false
  | some l => decide (l ≠ 0) && decide (l ≤ (n : Int))

/-- The accumulation loop of `DDB.list_songs`: decorate each streamed
document, append it, and stop once the (truthy) limit is reached. -/
def listLoop (limit : Option Int) : SongsCol → List Fields → List Fields
  | [], acc => acc
  | (docId, data) :: rest, acc =>
      let acc2 := acc ++ [decorateSong docId data]
      if pyLimitHit limit acc2.length then acc2 else listLoop limit rest acc2

/-- `DDB.list_songs(category, limit)`: stream the Songs collection with the
optional category filter, decorating each document and stopping early at a
truthy limit.  Store errors are re-raised. -/
def list_songs (category : Option String) (limit : Option Int)
    (streamOutcome : Except GoogleAPIError Unit) (songs : SongsCol) :
    Except GoogleAPIError (List Fields) :=
  match streamOutcome with
  | .ok _ => .ok (listLoop limit (matchingSongs category songs) [])
  | .error e => .error e

/-! ## The melody catalog and playlist allocator (`src/general_user.py`) -/

/-- One track of the in-memory melody database. -/
structure Track where
  id : Int
  name : String
  duration : Int
  bpm : Int
  key : String
  url : String
deriving DecidableEq, Repr

/-- The in-memory catalog: an ordered mapping category → tracks. -/
abbrev Catalog := List (String × List Track)

/-- `get_audio_url(category)`: per-category placeholder URL with the
Classical URL as default. -/
def get_audio_url (category : String) : String :=
  if category = "Classical" then "https://www.soundhelix.com/examples/mp3/SoundHelix-Song-1.mp3"
  else if category = "Rock" then "https://www.soundhelix.com/examples/mp3/SoundHelix-Song-2.mp3"
  else if category = "Pop" then "https://www.soundhelix.com/examples/mp3/SoundHelix-Song-3.mp3"
  else if category = "Rap" then "https://www.soundhelix.com/examples/mp3/SoundHelix-Song-4.mp3"
  else if category = "R&B" then "https://www.soundhelix.com/examples/mp3/SoundHelix-Song-5.mp3"
  else "https://www.soundhelix.com/examples/mp3/SoundHelix-Song-1.mp3"

/-- The `MELODY_DATABASE` literal before `attach_audio_urls_to_database`
runs at import time (tracks carry no `url` yet, modelled as `""`). -/
def MELODY_DATABASE_BASE : Catalog :=
  [("Classical",
    [⟨1, "Bach's Prelude", 240, 72, "C Major", ""⟩,
     ⟨2, "Mozart's Sonata", 280, 68, "G Major", ""⟩,
     ⟨3, "Beethoven's Symphony", 320, 76, "F Major", ""⟩,
     ⟨4, "Chopin's Nocturne", 200, 65, "D Major", ""⟩,
     ⟨5, "Vivaldi's Spring", 260, 80, "A Major", ""⟩,
     ⟨6, "Debussy's Clair de Lune", 220, 62, "E Major", ""⟩,
     ⟨7, "Pachelbel's Canon", 300, 70, "B‚ô≠ Major", ""⟩,
     ⟨8, "Schubert's Ave Maria", 180, 60, "C Major", ""⟩,
     ⟨9, "Brahms' Lullaby", 160, 58, "G Major", ""⟩]),
   ("Rock",
    [⟨10, "Thunder Strike", 210, 140, "E Minor", ""⟩,
     ⟨11, "Electric Storm", 195, 145, "A Minor", ""⟩,
     ⟨12, "Power Chord", 180, 135, "D Minor", ""⟩,
     ⟨13, "Rock Anthem", 240, 130, "G Minor", ""⟩,
     ⟨14, "Guitar Hero", 220, 138, "C Minor", ""⟩,
     ⟨15, "Metal Fusion", 200, 142, "F Minor", ""⟩,
     ⟨16, "Drum Solo", 160, 150, "B Minor", ""⟩,
     ⟨17, "Bass Drop", 185, 136, "E Minor", ""⟩,
     ⟨18, "Amplified", 205, 144, "A Minor", ""⟩]),
   ("Pop",
    [⟨19, "Catchy Beat", 180, 120, "C Major", ""⟩,
     ⟨20, "Dance Floor", 200, 125, "G Major", ""⟩,
     ⟨21, "Radio Hit", 190, 118, "F Major", ""⟩,
     ⟨22, "Upbeat Melody", 175, 122, "D Major", ""⟩,
     ⟨23, "Feel Good", 185, 115, "A Major", ""⟩,
     ⟨24, "Summer Vibes", 195, 128, "E Major", ""⟩,
     ⟨25, "Chart Topper", 170, 120, "B‚ô≠ Major", ""⟩,
     ⟨26, "Mainstream", 188, 124, "C Major", ""⟩,
     ⟨27, "Pop Anthem", 205, 116, "G Major", ""⟩]),
   ("Rap",
    [⟨28, "Street Beats", 200, 95, "E Minor", ""⟩,
     ⟨29, "Urban Flow", 180, 88, "A Minor", ""⟩,
     ⟨30, "Hip Hop Classic", 220, 92, "D Minor", ""⟩,
     ⟨31, "Freestyle", 160, 100, "G Minor", ""⟩,
     ⟨32, "Boom Bap", 195, 85, "C Minor", ""⟩,
     ⟨33, "Trap Beat", 175, 105, "F Minor", ""⟩,
     ⟨34, "Conscious Rap", 240, 90, "B Minor", ""⟩,
     ⟨35, "Underground", 210, 87, "E Minor", ""⟩,
     ⟨36, "Lyrical Flow", 185, 93, "A Minor", ""⟩]),
   ("R&B",
    [⟨37, "Smooth Soul", 220, 75, "C Major", ""⟩,
     ⟨38, "Velvet Voice", 240, 70, "G Major", ""⟩,
     ⟨39, "Groove Master", 200, 78, "F Major", ""⟩,
     ⟨40, "Soulful Nights", 260, 68, "D Major", ""⟩,
     ⟨41, "Love Ballad", 210, 72, "A Major", ""⟩,
     ⟨42, "Midnight Groove", 195, 76, "E Major", ""⟩,
     ⟨43, "Neo Soul", 225, 74, "B‚ô≠ Major", ""⟩,
     ⟨44, "Rhythm & Blues", 250, 65, "C Major", ""⟩,
     ⟨45, "Smooth Operator", 180, 80, "G Major", ""⟩])]

/-- `attach_audio_urls_to_database()`: set each track's `url` to its
category's placeholder URL. -/
def attachAudioUrlsToDatabase (db : Catalog) : Catalog :=
  db.map (fun p => (p.1, p.2.map (fun t => { t with url := get_audio_url p.1 })))

/-- The module-level `MELODY_DATABASE` after the import-time URL attachment. -/
def MELODY_DATABASE : Catalog :=
  attachAudioUrlsToDatabase MELODY_DATABASE_BASE

/-- `MELODY_DATABASE.get(cat, [])`: the track list of a category, `[]` when
the category is not a key of the catalog. -/
def catLookup (db : Catalog) (cat : String) : List Track :=
  match db.find? (fun p => p.1 = cat) with
  | some p => p.2
  | none => []

/-- Membership test `category in MELODY_DATABASE` (key membership). -/
def catMem (db : Catalog) (cat : String) : Bool :=
  (db.find? (fun p => p.1 = cat)).isSome

/-- Python's `round` on a number with no digits argument:
round half to even. -/
def pyRound (q : ℚ) : ℤ :=
  let f : ℤ := q.floor
  let frac : ℚ := q - (f : ℚ)
  if frac < 1/2 then f
  else if 1/2 < frac then f + 1
  else if f % 2 = 0 then f else f + 1

/-- Python's slice `l[:n]` for an arbitrary integer `n`: the first `n`
elements when `n ≥ 0`, all but the last `-n` elements when `n < 0`. -/
def pySliceTo (n : Int) (l : List α) : List α :=
  if 0 ≤ n then l.take n.toNat else l.take (l.length - (-n).toNat)

/-- A playlist entry `{**track, 'category': cat}`. -/
structure PlaylistItem where
  id : Int
  name : String
  duration : Int
  bpm : Int
  key : String
  url : String
  category : String
deriving DecidableEq, Repr

/-- `{**track, 'category': cat}`: a track tagged with its source category. -/
def tagTrack (t : Track) (cat : String) : PlaylistItem :=
  ⟨t.id, t.name, t.duration, t.bpm, t.key, t.url, cat⟩

/-- The raw total `float(sum((r.get('score') or 0.0) for r in ranked))`,
taken over the whole caregiver list before the catalog filter. -/
def rawTotal (ranked : List RankedItem) : ℚ :=
  (ranked.map (fun r => r.score)).sum

/-- The normalization denominator `float(sum(...)) or 1.0`: a zero sum is
replaced by `1.0` (a nonzero sum, negative included, is kept). -/
def totalFor (ranked : List RankedItem) : ℚ :=
  if rawTotal ranked = 0 then 1 else rawTotal ranked

/-- The caregiver entries surviving the catalog filter
`if str(r.get('category')) in MELODY_DATABASE`, with their raw scores. -/
def survivorsRawFor (db : Catalog) (ranked : List RankedItem) : List RankedItem :=
  ranked.filter (fun r => catMem db r.category)

/-- The normalized surviving list
`[{'category': ..., 'score': (r['score'] or 0.0) / total} for r in ranked if ...]`. -/
def survivorsFor (db : Catalog) (ranked : List RankedItem) : List RankedItem :=
  (survivorsRawFor db ranked).map
    (fun r => RankedItem.mk r.category (r.score / totalFor ranked))

/-- The per-category allocation loop: for each surviving entry,
`count = max(1, int(round(score * max_tracks)))`, overridden on the last
entry by `max(1, remaining)`, clamped by `min(count, remaining)`; the loop
records `(category, count)`, decrements `remaining`, and stops once
`remaining <= 0`. -/
def allocLoop (remaining maxTracks : Int) : List RankedItem → List (String × Int)
  | [] => []
  | r :: rest =>
      let count0 : Int := max 1 (pyRound (r.score * (maxTracks : ℚ)))
      let count1 : Int := if rest.isEmpty then max 1 remaining else count0
      let count : Int := min count1 remaining
      let remaining2 : Int := remaining - count
      (r.category, count) ::
        (if remaining2 ≤ 0 then [] else allocLoop remaining2 maxTracks rest)

/-- The allocation computed for a caregiver list: normalize, filter by the
catalog, then run the allocation loop with budget `max_tracks`. -/
def allocFor (db : Catalog) (maxTracks : Int) (ranked : List RankedItem) :
    List (String × Int) :=
  allocLoop maxTracks maxTracks (survivorsFor db ranked)

/-- Sum of the allocated per-category counts. -/
def allocCountSum (alloc : List (String × Int)) : Int :=
  (alloc.map (fun p => p.2)).sum

/-- The inner playlist loop `for track in MELODY_DATABASE.get(cat, [])[:cnt]`:
append each tagged track and stop as soon as `len(playlist) >= max_tracks`. -/
def addTracks (maxTracks : Int) (cat : String) :
    List Track → List PlaylistItem → List PlaylistItem
  | [], pl => pl
  | t :: rest, pl =>
      let pl2 := pl ++ [tagTrack t cat]
      if maxTracks ≤ (pl2.length : Int) then pl2 else addTracks maxTracks cat rest pl2

/-- The outer playlist loop `for cat, cnt in alloc`: run the inner loop on
the sliced track list of each allocated category, stopping once
`len(playlist) >= max_tracks`. -/
def buildPlaylist (db : Catalog) (maxTracks : Int) :
    List (String × Int) → List PlaylistItem → List PlaylistItem
  | [], pl => pl
  | (cat, cnt) :: rest, pl =>
      let pl2 := addTracks maxTracks cat (pySliceTo cnt (catLookup db cat)) pl
      if maxTracks ≤ (pl2.length : Int) then pl2 else buildPlaylist db maxTracks rest pl2

/-- `get_recommended_playlist_for_user(user_email, max_tracks=6)` from
`src/general_user.py`, with the `shared_recommendations.json` content made
explicit as `recs` (per email, the `categories` list of the user's entry;
`none` collapses the missing / falsy / non-dict entry cases) and the
module-level `MELODY_DATABASE` passed as `db`. -/
def get_recommended_playlist_for_user
    (recs : String → Option (List RankedItem)) (db : Catalog)
    (user_email : String) (maxTracks : Int) : List PlaylistItem :=
  if user_email = "" then []
  else
    match recs user_email with
    | none => []
    | some ranked =>
        if ranked.isEmpty then []
        else buildPlaylist db maxTracks (allocFor db maxTracks ranked) []

/-! ## Helper lemmas -/

theorem find?_append_of_none {α} (p : α → Bool) (l₁ l₂ : List α)
    (h : l₁.find? p = none) : (l₁ ++ l₂).find? p = l₂.find? p := by
  induction l₁ with
  | nil => rfl
  | cons a t ih =>
      rw [List.find?] at h
      rw [List.cons_append, List.find?]
      cases hp : p a with
      | true => simp [hp] at h
      | false =>
          simp only [hp] at h ⊢
          exact ih h

theorem fieldsLookup_append_right (d l : Fields) (k : String)
    (h : fieldsLookup d k = none) :
    fieldsLookup (d ++ l) k = fieldsLookup l k := by
  unfold fieldsLookup at h ⊢
  cases hf : d.find? (fun p => p.1 = k) with
  | some x => rw [hf] at h; simp at h
  | none => rw [find?_append_of_none _ _ _ hf]

theorem fieldsLookup_setdefault_other (d : Fields) (k k' : String) (v : FVal)
    (hk : k' ≠ k) (h : fieldsLookup d k = none) :
    fieldsLookup (setdefault d k' v) k = none := by
  unfold setdefault
  split
  · exact h
  · rw [fieldsLookup_append_right _ _ _ h]
    simp [fieldsLookup, List.find?, hk]

theorem fieldsLookup_setdefault_absent (d : Fields) (k : String) (v : FVal)
    (h : fieldsLookup d k = none) :
    fieldsLookup (setdefault d k v) k = some v := by
  unfold setdefault
  have hf : d.find? (fun p => p.1 = k) = none := by
    unfold fieldsLookup at h
    cases hf : d.find? (fun p => p.1 = k) with
    | some x => rw [hf] at h; simp at h
    | none => rfl
  rw [hf]
  simp only [Option.isSome_none, Bool.false_eq_true, if_false]
  rw [fieldsLookup_append_right _ _ _ h]
  simp [fieldsLookup, List.find?]

theorem listLoop_no_hit (limit : Option Int)
    (h : ∀ n, pyLimitHit limit n = false) :
    ∀ (docs : SongsCol) (acc : List Fields),
      listLoop limit docs acc = acc ++ docs.map (fun p => decorateSong p.1 p.2) := by
  intro docs
  induction docs with
  | nil => intro acc; simp [listLoop]
  | cons d rest ih =>
      intro acc
      rw [listLoop]
      simp only [h, Bool.false_eq_true, if_false]
      rw [ih]
      simp

theorem listLoop_take (l : Int) (hl : 0 < l) :
    ∀ (docs : SongsCol) (acc : List Fields), acc.length < l.toNat →
      listLoop (some l) docs acc
        = acc ++ (docs.take (l.toNat - acc.length)).map (fun p => decorateSong p.1 p.2) := by
  intro docs
  induction docs with
  | nil => intro acc _; simp [listLoop]
  | cons d rest ih =>
      intro acc hacc
      rw [listLoop]
      have hlen : (acc ++ [decorateSong d.1 d.2]).length = acc.length + 1 := by simp
      have htoNat : ((l.toNat : Int)) = l := Int.toNat_of_nonneg (le_of_lt hl)
      by_cases hhit : l ≤ ((acc.length + 1 : Nat) : Int)
      · have hhit' : pyLimitHit (some l) (acc ++ [decorateSong d.1 d.2]).length = true := by
          simp only [pyLimitHit, hlen]
          have : l ≠ 0 := by omega
          simp [this]
          exact_mod_cast hhit
        rw [hhit']
        simp only [if_true]
        have heq : l.toNat - acc.length = 1 := by
          have h1 : (acc.length : Int) < l := by
            calc (acc.length : Int) < (l.toNat : Int) := by exact_mod_cast hacc
            _ = l := htoNat
          omega
        rw [heq]
        simp
      · have hhit' : pyLimitHit (some l) (acc ++ [decorateSong d.1 d.2]).length = false := by
          simp only [pyLimitHit, hlen]
          have : ¬ (l ≤ ((acc.length + 1 : Nat) : Int)) := hhit
          simp only [Bool.and_eq_false_iff, decide_eq_false_iff_not]
          right
          exact_mod_cast this
        rw [hhit']
        simp only [Bool.false_eq_true, if_false]
        have hacc2 : (acc ++ [decorateSong d.1 d.2]).length < l.toNat := by
          rw [hlen]; omega
        rw [ih _ hacc2]
        rw [hlen]
        have hge : 1 ≤ l.toNat - acc.length := by omega
        have hstep : l.toNat - acc.length = (l.toNat - (acc.length + 1)) + 1 := by omega
        rw [hstep, List.take_succ_cons]
        simp

/-! ## Claim C1 — error handling at the facade boundary -/

/-- C1 (counterexample): on a store-level error, every per-call facade
operation returns the propagated `GoogleAPIError` (the Python code
re-raises it), not the documented sentinel value (`false` / `null` /
empty list), refuting the claim at these concrete inputs. -/
theorem C1_counterexample :
    upsert_user "a@b.c" (some "Alice") 0 (.error (.mk "boom")) (fun _ => none)
      = .error (.mk "boom")
    ∧ put_recommendations "a@b.c" (some []) none 0 (.error (.mk "boom")) (fun _ => none)
      = .error (.mk "boom")
    ∧ get_recommendations "a@b.c" (.error (.mk "boom")) (fun _ => none)
      = .error (.mk "boom")
    ∧ log_event "a@b.c" "login" none 0 (.error (.mk "boom")) []
      = .error (.mk "boom")
    ∧ put_song "s1" [] (.error (.mk "boom")) []
      = .error (.mk "boom")
    ∧ list_songs none none (.error (.mk "boom")) []
      = .error (.mk "boom") :=
  ⟨rfl, rfl, rfl, rfl, rfl, rfl⟩

/-- C1 (amended): if a store-level error occurs during the call, each
per-call facade operation (upsert_user, put_recommendations,
get_recommendations, log_event, put_song, list_songs) re-raises that
error past the facade boundary (after an optional debug diagnostic),
rather than converting it to the documented sentinel value. -/
theorem C1_amended_thm (email etype sid : String) (name : Option String)
    (now : Int) (e : GoogleAPIError) (cats : Option (List RankedItem))
    (cogs : Option CogScores) (payload : Option EventPayload) (data : Fields)
    (users : UsersCol) (recs : RecsCol) (events : List EventDoc)
    (songs : SongsCol) (category : Option String) (lim : Option Int)
    (hemail : email ≠ "") (hsid : sid ≠ "") :
    upsert_user email name now (.error e) users = .error e
    ∧ put_recommendations email cats cogs now (.error e) recs = .error e
    ∧ get_recommendations email (.error e) recs = .error e
    ∧ log_event email etype payload now (.error e) events = .error e
    ∧ put_song sid data (.error e) songs = .error e
    ∧ list_songs category lim (.error e) songs = .error e := by
  refine ⟨?_, ?_, ?_, ?_, ?_, ?_⟩ <;>
    simp [upsert_user, put_recommendations, get_recommendations, log_event,
      put_song, list_songs, hemail, hsid]

/-- C1 (witness): the amended theorem applied at concrete inputs. -/
theorem C1_amended_witness :
    ("a@b.c" : String) ≠ "" ∧ ("s1" : String) ≠ ""
    ∧ (upsert_user "a@b.c" (some "Alice") 0 (.error (.mk "down")) (fun _ => none)
        = .error (.mk "down")
      ∧ put_recommendations "a@b.c" none none 0 (.error (.mk "down")) (fun _ => none)
        = .error (.mk "down")
      ∧ get_recommendations "a@b.c" (.error (.mk "down")) (fun _ => none)
        = .error (.mk "down")
      ∧ log_event "a@b.c" "play" none 0 (.error (.mk "down")) []
        = .error (.mk "down")
      ∧ put_song "s1" [] (.error (.mk "down")) []
        = .error (.mk "down")
      ∧ list_songs (some "Rock") (some 3) (.error (.mk "down")) []
        = .error (.mk "down")) :=
  ⟨by decide, by decide,
   C1_amended_thm "a@b.c" "play" "s1" (some "Alice") 0 (.mk "down") none none
     none [] (fun _ => none) (fun _ => none) [] [] (some "Rock") (some 3)
     (by decide) (by decide)⟩

/-! ## Claim C6 — put_recommendations full-replace semantics -/

/-- C6: for a non-empty email, `put_recommendations` fully replaces the
Recommendation document with exactly `{user_email, updated_at, categories
(defaulted to the empty list), cognitive_scores only when non-null}`:
after a write that set `cognitive_scores` followed by a write with
`cognitive_scores = null`, the stored document has no `cognitive_scores`
field and carries only the second write's data. -/
theorem C6_thm (email : String) (h : email ≠ "")
    (catsA catsB : Option (List RankedItem)) (scoresA : CogScores)
    (t1 t2 : Int) (recs0 r1 r2 : RecsCol) (b1 b2 : Bool)
    (h1 : put_recommendations email catsA (some scoresA) t1 (.ok ()) recs0 = .ok (b1, r1))
    (h2 : put_recommendations email catsB none t2 (.ok ()) r1 = .ok (b2, r2)) :
    r2 email = some { user_email := email, updated_at := t2,
                      categories := catsB.getD [], cognitive_scores := none } := by
  unfold put_recommendations at h2
  rw [if_neg h] at h2
  simp only [Except.ok.injEq, Prod.mk.injEq] at h2
  rw [← h2.2]
  simp [mapSet]

/-- C6 (witness): the theorem applied at concrete inputs. -/
theorem C6_witness :
    ("u@x.com" : String) ≠ ""
    ∧ put_recommendations "u@x.com" (some [⟨"Rock", 2⟩]) (some [("focus", 7)]) 10
        (.ok ()) (fun _ => none)
      = .ok (true, mapSet (fun _ => none) "u@x.com"
          (RecDoc.mk "u@x.com" 10 [⟨"Rock", 2⟩] (some [("focus", 7)])))
    ∧ put_recommendations "u@x.com" (some [⟨"Pop", 1⟩]) none 20 (.ok ())
        (mapSet (fun _ => none) "u@x.com"
          (RecDoc.mk "u@x.com" 10 [⟨"Rock", 2⟩] (some [("focus", 7)])))
      = .ok (true, mapSet
          (mapSet (fun _ => none) "u@x.com"
            (RecDoc.mk "u@x.com" 10 [⟨"Rock", 2⟩] (some [("focus", 7)]))) "u@x.com"
          (RecDoc.mk "u@x.com" 20 [⟨"Pop", 1⟩] none))
    ∧ (mapSet
        (mapSet (fun _ => none) "u@x.com"
          (RecDoc.mk "u@x.com" 10 [⟨"Rock", 2⟩] (some [("focus", 7)]))) "u@x.com"
        (RecDoc.mk "u@x.com" 20 [⟨"Pop", 1⟩] none)) "u@x.com"
      = some (RecDoc.mk "u@x.com" 20
          ((some [⟨"Pop", 1⟩] : Option (List RankedItem)).getD []) none) :=
  ⟨by decide, rfl, rfl,
   C6_thm "u@x.com" (by decide) (some [⟨"Rock", 2⟩]) (some [⟨"Pop", 1⟩])
     [("focus", 7)] 10 20 (fun _ => none) _ _ true true rfl rfl⟩

/-! ## Claim C7 — empty email is a no-op -/

/-- C7: with the empty email, `upsert_user`, `put_recommendations` and
`log_event` return `false` and leave the store untouched (for any store
outcome, including a failing store, showing no store call is made), and
`get_recommendations` returns `null` likewise without a store read. -/
theorem C7_thm (name : Option String) (now : Int)
    (outcome : Except GoogleAPIError Unit) (users : UsersCol) (recs : RecsCol)
    (events : List EventDoc) (etype : String) (payload : Option EventPayload)
    (cats : Option (List RankedItem)) (cogs : Option CogScores) :
    upsert_user "" name now outcome users = .ok (false, users)
    ∧ put_recommendations "" cats cogs now outcome recs = .ok (false, recs)
    ∧ log_event "" etype payload now outcome events = .ok (false, events)
    ∧ get_recommendations "" outcome recs = .ok none :=
  ⟨rfl, rfl, rfl, rfl⟩

/-! ## Claim C9 — empty or null name defaults to "User" -/

/-- C9: for a non-empty email, when the `name` argument is null or the
empty string, the User document written by `upsert_user` carries the
literal name `"User"`. -/
theorem C9_thm (email : String) (h : email ≠ "") (now : Int) (users : UsersCol) :
    upsert_user email none now (.ok ()) users
      = .ok (true, mapSet users email
          { user_email := email, name := "User", updated_at := now })
    ∧ upsert_user email (some "") now (.ok ()) users
      = .ok (true, mapSet users email
          { user_email := email, name := "User", updated_at := now }) := by
  constructor <;> simp [upsert_user, h]

/-- C9 (witness): the theorem applied at concrete inputs. -/
theorem C9_witness :
    ("a@b.c" : String) ≠ ""
    ∧ (upsert_user "a@b.c" none 5 (.ok ()) (fun _ => none)
        = .ok (true, mapSet (fun _ => none) "a@b.c"
            { user_email := "a@b.c", name := "User", updated_at := 5 })
      ∧ upsert_user "a@b.c" (some "") 5 (.ok ()) (fun _ => none)
        = .ok (true, mapSet (fun _ => none) "a@b.c"
            { user_email := "a@b.c", name := "User", updated_at := 5 })) :=
  ⟨by decide, C9_thm "a@b.c" (by decide) 5 (fun _ => none)⟩

/-! ## Claim C8 — list_songs with a positive limit -/

/-- C8 (counterexample): a stored song document that already contains an
`id` field keeps it — the returned item's `id` is `"other"`, not its
document key `"k1"` (the code uses `setdefault`, which only fills `id`
when absent), refuting the claim that every returned item carries an `id`
equal to its document key. -/
theorem C8_counterexample :
    list_songs (some "Rock") (some 1) (.ok ())
      [("k1", [("category", FVal.s "Rock"), ("id", FVal.s "other")])]
      = .ok [[("category", FVal.s "Rock"), ("id", FVal.s "other"),
              ("song_id", FVal.s "k1")]]
    ∧ fieldsLookup [("category", FVal.s "Rock"), ("id", FVal.s "other"),
        ("song_id", FVal.s "k1")] "id" = some (FVal.s "other")
    ∧ FVal.s "other" ≠ FVal.s "k1" :=
  ⟨rfl, rfl, by decide⟩

/-- C8 (amended): for every category filter and positive limit,
`list_songs` returns exactly the first `limit` matching songs in
store-stream order (the stream stops once `limit` results are collected),
each decorated by `setdefault`; the returned `id` field equals the
document key whenever the stored document does not already carry an `id`
field of its own (a stored `id` is preserved as-is). -/
theorem C8_amended_thm (category : Option String) (lim : Int)
    (songs : SongsCol) (hl : 0 < lim) :
    list_songs category (some lim) (.ok ()) songs
      = .ok (((matchingSongs category songs).take lim.toNat).map
          (fun p => decorateSong p.1 p.2))
    ∧ ∀ (docId : String) (data : Fields), fieldsLookup data "id" = none →
        fieldsLookup (decorateSong docId data) "id" = some (FVal.s docId) := by
  constructor
  · unfold list_songs
    rw [listLoop_take lim hl _ [] (by simp; omega)]
    simp
  · intro docId data h
    unfold decorateSong
    exact fieldsLookup_setdefault_absent _ _ _
      (fieldsLookup_setdefault_other _ _ _ _ (by decide) h)

/-- C8 (witness): the amended theorem applied at a concrete store with five
Rock and Pop documents and limit 3. -/
theorem C8_amended_witness :
    (0 : Int) < 3
    ∧ (list_songs (some "Rock") (some 3) (.ok ())
        [("a", [("category", FVal.s "Rock")]), ("b", [("category", FVal.s "Pop")]),
         ("c", [("category", FVal.s "Rock")]), ("d", [("category", FVal.s "Rock")]),
         ("e", [("category", FVal.s "Rock")])]
        = .ok (((matchingSongs (some "Rock")
            [("a", [("category", FVal.s "Rock")]), ("b", [("category", FVal.s "Pop")]),
             ("c", [("category", FVal.s "Rock")]), ("d", [("category", FVal.s "Rock")]),
             ("e", [("category", FVal.s "Rock")])]).take (3 : Int).toNat).map
            (fun p => decorateSong p.1 p.2))
      ∧ ∀ (docId : String) (data : Fields), fieldsLookup data "id" = none →
          fieldsLookup (decorateSong docId data) "id" = some (FVal.s docId)) :=
  ⟨by decide,
   C8_amended_thm (some "Rock") 3
     [("a", [("category", FVal.s "Rock")]), ("b", [("category", FVal.s "Pop")]),
      ("c", [("category", FVal.s "Rock")]), ("d", [("category", FVal.s "Rock")]),
      ("e", [("category", FVal.s "Rock")])] (by decide)⟩

/-! ## Claim C10 — limit 0 or null means no limit -/

/-- C10: `list_songs` with `limit = 0` behaves exactly like `limit = null`
(Python truthiness: `if limit and ...` never stops the stream), returning
every matching song rather than zero songs. -/
theorem C10_thm (category : Option String) (songs : SongsCol) :
    list_songs category (some 0) (.ok ()) songs
      = list_songs category none (.ok ()) songs
    ∧ list_songs category none (.ok ()) songs
      = .ok ((matchingSongs category songs).map (fun p => decorateSong p.1 p.2)) := by
  have hnone : ∀ n, pyLimitHit none n = false := fun _ => rfl
  have hzero : ∀ n, pyLimitHit (some 0) n = false := by
    intro n; simp [pyLimitHit]
  unfold list_songs
  rw [listLoop_no_hit none hnone, listLoop_no_hit (some 0) hzero]
  simp

/-! ## Allocator lemmas -/

theorem pySliceTo_length_le {α} (n : Int) (l : List α) (hn : 0 ≤ n) :
    ((pySliceTo n l).length : Int) ≤ n := by
  unfold pySliceTo
  rw [if_pos hn]
  have : (l.take n.toNat).length ≤ n.toNat := by
    rw [List.length_take]; omega
  calc ((l.take n.toNat).length : Int) ≤ (n.toNat : Int) := by exact_mod_cast this
    _ = n := Int.toNat_of_nonneg hn

theorem pySliceTo_ne_nil {α} (n : Int) (l : List α) (hn : 1 ≤ n) (hl : l ≠ []) :
    pySliceTo n l ≠ [] := by
  unfold pySliceTo
  rw [if_pos (by omega)]
  cases l with
  | nil => exact absurd rfl hl
  | cons x xs =>
      have h1 : 1 ≤ n.toNat := by omega
      cases hk : n.toNat with
      | zero => omega
      | succ k => simp [hk, List.take_succ_cons]

theorem addTracks_mem (m : Int) (c : String) :
    ∀ (ts : List Track) (pl : List PlaylistItem) (x : PlaylistItem),
      x ∈ pl → x ∈ addTracks m c ts pl := by
  intro ts
  induction ts with
  | nil => intro pl x hx; exact hx
  | cons t rest ih =>
      intro pl x hx
      rw [addTracks]
      split
      · simp [hx]
      · exact ih _ x (by simp [hx])

theorem addTracks_cons_mem (m : Int) (c : String) (t : Track)
    (rest : List Track) (pl : List PlaylistItem) :
    tagTrack t c ∈ addTracks m c (t :: rest) pl := by
  rw [addTracks]
  split
  · simp
  · exact addTracks_mem m c rest _ _ (by simp)

theorem addTracks_length_le (m : Int) (c : String) :
    ∀ (ts : List Track) (pl : List PlaylistItem),
      (addTracks m c ts pl).length ≤ pl.length + ts.length := by
  intro ts
  induction ts with
  | nil => intro pl; simp [addTracks]
  | cons t rest ih =>
      intro pl
      rw [addTracks]
      split
      · simp
      · calc (addTracks m c rest (pl ++ [tagTrack t c])).length
            ≤ (pl ++ [tagTrack t c]).length + rest.length := ih _
          _ = pl.length + (t :: rest).length := by simp [Nat.add_comm, Nat.add_assoc, Nat.add_left_comm]

theorem addTracks_length_ge (m : Int) (c : String) :
    ∀ (ts : List Track) (pl : List PlaylistItem),
      pl.length ≤ (addTracks m c ts pl).length := by
  intro ts
  induction ts with
  | nil => intro pl; simp [addTracks]
  | cons t rest ih =>
      intro pl
      rw [addTracks]
      split
      · simp
      · calc pl.length ≤ (pl ++ [tagTrack t c]).length := by simp
          _ ≤ _ := ih _

theorem buildPlaylist_mem (db : Catalog) (m : Int) :
    ∀ (alloc : List (String × Int)) (pl : List PlaylistItem) (x : PlaylistItem),
      x ∈ pl → x ∈ buildPlaylist db m alloc pl := by
  intro alloc
  induction alloc with
  | nil => intro pl x hx; exact hx
  | cons a rest ih =>
      intro pl x hx
      obtain ⟨cat, cnt⟩ := a
      rw [buildPlaylist]
      split
      · exact addTracks_mem _ _ _ _ _ hx
      · exact ih _ x (addTracks_mem _ _ _ _ _ hx)

theorem buildPlaylist_length_ge (db : Catalog) (m : Int) :
    ∀ (alloc : List (String × Int)) (pl : List PlaylistItem),
      pl.length ≤ (buildPlaylist db m alloc pl).length := by
  intro alloc
  induction alloc with
  | nil => intro pl; simp [buildPlaylist]
  | cons a rest ih =>
      intro pl
      obtain ⟨cat, cnt⟩ := a
      rw [buildPlaylist]
      split
      · exact addTracks_length_ge _ _ _ _
      · calc pl.length ≤ (addTracks m cat (pySliceTo cnt (catLookup db cat)) pl).length :=
              addTracks_length_ge _ _ _ _
          _ ≤ _ := ih _

theorem buildPlaylist_length_le (db : Catalog) (m : Int) :
    ∀ (alloc : List (String × Int)) (pl : List PlaylistItem),
      ((buildPlaylist db m alloc pl).length : Int)
        ≤ (pl.length : Int)
          + (alloc.map (fun p => ((pySliceTo p.2 (catLookup db p.1)).length : Int))).sum := by
  intro alloc
  induction alloc with
  | nil => intro pl; simp [buildPlaylist]
  | cons a rest ih =>
      intro pl
      obtain ⟨cat, cnt⟩ := a
      rw [buildPlaylist]
      have hsum : (0 : Int)
          ≤ (rest.map (fun p => ((pySliceTo p.2 (catLookup db p.1)).length : Int))).sum := by
        apply List.sum_nonneg
        intro x hx
        simp only [List.mem_map] at hx
        obtain ⟨p, _, hp⟩ := hx
        rw [← hp]
        exact_mod_cast Nat.zero_le _
      have hadd : ((addTracks m cat (pySliceTo cnt (catLookup db cat)) pl).length : Int)
          ≤ (pl.length : Int) + ((pySliceTo cnt (catLookup db cat)).length : Int) := by
        have := addTracks_length_le m cat (pySliceTo cnt (catLookup db cat)) pl
        exact_mod_cast this
      split
      · simp only [List.map_cons, List.sum_cons]
        omega
      · calc ((buildPlaylist db m rest (addTracks m cat (pySliceTo cnt (catLookup db cat)) pl)).length : Int)
            ≤ ((addTracks m cat (pySliceTo cnt (catLookup db cat)) pl).length : Int)
              + (rest.map (fun p => ((pySliceTo p.2 (catLookup db p.1)).length : Int))).sum := ih _
          _ ≤ _ := by simp only [List.map_cons, List.sum_cons]; omega

theorem allocLoop_count_pos (m : Int) :
    ∀ (l : List RankedItem) (r : Int), 1 ≤ r →
      ∀ e ∈ allocLoop r m l, 1 ≤ e.2 := by
  intro l
  induction l with
  | nil => intro r _ e he; simp [allocLoop] at he
  | cons r0 rest ih =>
      intro r hr e he
      simp only [allocLoop] at he
      rcases List.mem_cons.mp he with h | h
      · rw [h]
        refine le_min ?_ hr
        split
        · exact le_max_left 1 _
        · exact le_max_left 1 _
      · by_cases hrem :
          r - min (if rest.isEmpty then max 1 r
            else max 1 (pyRound (r0.score * (m : ℚ)))) r ≤ 0
        · rw [if_pos hrem] at h
          simp at h
        · rw [if_neg hrem] at h
          exact ih _ (by omega) e h

theorem allocLoop_sum_le (m : Int) :
    ∀ (l : List RankedItem) (r : Int), 0 ≤ r →
      allocCountSum (allocLoop r m l) ≤ r := by
  intro l
  induction l with
  | nil => intro r hr; simpa [allocLoop, allocCountSum] using hr
  | cons r0 rest ih =>
      intro r hr
      simp only [allocLoop]
      generalize (if rest.isEmpty then max 1 r
        else max 1 (pyRound (r0.score * (m : ℚ)))) = c1
      by_cases hrem : r - min c1 r ≤ 0
      · rw [if_pos hrem]
        simp only [allocCountSum, List.map_cons, List.map_nil,
          List.sum_cons, List.sum_nil]
        omega
      · rw [if_neg hrem]
        have hih := ih (r - min c1 r) (by omega)
        simp only [allocCountSum, List.map_cons, List.sum_cons] at hih ⊢
        omega

theorem allocLoop_sum_eq_of_short (m : Int) :
    ∀ (l : List RankedItem) (r : Int),
      (allocLoop r m l).length < l.length →
      allocCountSum (allocLoop r m l) = r := by
  intro l
  induction l with
  | nil => intro r h; simp [allocLoop] at h
  | cons r0 rest ih =>
      intro r h
      simp only [allocLoop] at h ⊢
      generalize hc1 : (if rest.isEmpty then max 1 r
        else max 1 (pyRound (r0.score * (m : ℚ)))) = c1 at h ⊢
      by_cases hrem : r - min c1 r ≤ 0
      · rw [if_pos hrem]
        simp only [allocCountSum, List.map_cons, List.map_nil,
          List.sum_cons, List.sum_nil]
        omega
      · rw [if_neg hrem] at h ⊢
        have hlen : (allocLoop (r - min c1 r) m rest).length < rest.length := by
          simp only [List.length_cons] at h
          omega
        have hih := ih _ hlen
        simp only [allocCountSum, List.map_cons, List.sum_cons] at hih ⊢
        omega

theorem allocLoop_map_fst (m : Int) :
    ∀ (l : List RankedItem) (r : Int),
      (allocLoop r m l).map Prod.fst
        = (l.map RankedItem.category).take (allocLoop r m l).length := by
  intro l
  induction l with
  | nil => intro r; simp [allocLoop]
  | cons r0 rest ih =>
      intro r
      simp only [allocLoop]
      by_cases hrem :
          r - min (if rest.isEmpty then max 1 r
            else max 1 (pyRound (r0.score * (m : ℚ)))) r ≤ 0
      · rw [if_pos hrem]
        simp
      · rw [if_neg hrem]
        simp only [List.map_cons, List.length_cons, List.take_succ_cons,
          List.cons.injEq, true_and]
        exact ih _

theorem allocLoop_slice_sum_le (db : Catalog) (m : Int) :
    ∀ (l : List RankedItem) (r : Int), 0 ≤ r →
      ((allocLoop r m l).map
        (fun p => ((pySliceTo p.2 (catLookup db p.1)).length : Int))).sum ≤ r := by
  intro l
  induction l with
  | nil => intro r hr; simpa [allocLoop] using hr
  | cons r0 rest ih =>
      intro r hr
      simp only [allocLoop]
      have hc1 : (1 : Int) ≤ (if rest.isEmpty then max 1 r
          else max 1 (pyRound (r0.score * (m : ℚ)))) := by
        split
        · exact le_max_left 1 _
        · exact le_max_left 1 _
      have hcnt0 : 0 ≤ min (if rest.isEmpty then max 1 r
          else max 1 (pyRound (r0.score * (m : ℚ)))) r := le_min (by omega) hr
      have hcntr : min (if rest.isEmpty then max 1 r
          else max 1 (pyRound (r0.score * (m : ℚ)))) r ≤ r := min_le_right _ _
      have hslice : ((pySliceTo (min (if rest.isEmpty then max 1 r
          else max 1 (pyRound (r0.score * (m : ℚ)))) r) (catLookup db r0.category)).length : Int)
          ≤ min (if rest.isEmpty then max 1 r
            else max 1 (pyRound (r0.score * (m : ℚ)))) r :=
        pySliceTo_length_le _ _ hcnt0
      by_cases hrem :
          r - min (if rest.isEmpty then max 1 r
            else max 1 (pyRound (r0.score * (m : ℚ)))) r ≤ 0
      · rw [if_pos hrem]
        simp only [List.map_cons, List.map_nil, List.sum_cons, List.sum_nil]
        omega
      · rw [if_neg hrem]
        have hih := ih (r - min (if rest.isEmpty then max 1 r
          else max 1 (pyRound (r0.score * (m : ℚ)))) r) (by omega)
        simp only [List.map_cons, List.sum_cons] at *
        omega

theorem melody_lists_ne_nil : ∀ p ∈ MELODY_DATABASE, p.2 ≠ [] := by decide

theorem catMem_lookup_ne_nil (c : String)
    (h : catMem MELODY_DATABASE c = true) :
    catLookup MELODY_DATABASE c ≠ [] := by
  unfold catMem at h
  unfold catLookup
  cases hf : MELODY_DATABASE.find? (fun p => p.1 = c) with
  | none => rw [hf] at h; simp at h
  | some p => exact melody_lists_ne_nil p (List.mem_of_find?_eq_some hf)

theorem allocLoop_mem_fst (m : Int) (l : List RankedItem) (r : Int)
    (e : String × Int) (he : e ∈ allocLoop r m l) :
    e.1 ∈ l.map RankedItem.category := by
  have h1 : e.1 ∈ (allocLoop r m l).map Prod.fst := List.mem_map_of_mem _ he
  rw [allocLoop_map_fst] at h1
  exact List.mem_of_mem_take h1

theorem allocCountSum_ge_length :
    ∀ (alloc : List (String × Int)), (∀ e ∈ alloc, 1 ≤ e.2) →
      (alloc.length : Int) ≤ allocCountSum alloc := by
  intro alloc
  induction alloc with
  | nil => intro _; simp [allocCountSum]
  | cons a rest ih =>
      intro h
      have ha := h a (List.mem_cons_self a rest)
      have hih := ih (fun e he => h e (List.mem_cons_of_mem a he))
      simp only [allocCountSum, List.map_cons, List.sum_cons, List.length_cons] at hih ⊢
      push_cast
      omega

theorem buildPlaylist_contains (db : Catalog) (m : Int) :
    ∀ (alloc : List (String × Int)) (pl : List PlaylistItem),
      (∀ e ∈ alloc, 1 ≤ e.2 ∧ catLookup db e.1 ≠ []) →
      (pl.length : Int) + allocCountSum alloc ≤ m →
      ∀ e ∈ alloc, ∃ x ∈ buildPlaylist db m alloc pl, x.category = e.1 := by
  intro alloc
  induction alloc with
  | nil => intro pl _ _ e he; simp at he
  | cons a rest ih =>
      intro pl hall hbudget e he
      obtain ⟨cat, cnt⟩ := a
      have hhead := hall (cat, cnt) (List.mem_cons_self _ _)
      have hslice : pySliceTo cnt (catLookup db cat) ≠ [] :=
        pySliceTo_ne_nil _ _ hhead.1 hhead.2
      have hmem2 : ∃ x ∈ addTracks m cat (pySliceTo cnt (catLookup db cat)) pl,
          x.category = cat := by
        cases hsl : pySliceTo cnt (catLookup db cat) with
        | nil => exact absurd hsl hslice
        | cons t ts =>
            refine ⟨tagTrack t cat, ?_, rfl⟩
            exact addTracks_cons_mem m cat t ts pl
      simp only [buildPlaylist]
      rcases List.mem_cons.mp he with heq | hrest
      · obtain ⟨x, hx, hxcat⟩ := hmem2
        split
        · exact ⟨x, hx, by rw [heq]; exact hxcat⟩
        · exact ⟨x, buildPlaylist_mem db m rest _ x hx, by rw [heq]; exact hxcat⟩
      · have hrest_ne : rest ≠ [] := List.ne_nil_of_mem hrest
        have hlen_rest : 1 ≤ rest.length := List.length_pos.mpr hrest_ne
        have hsum_rest : (rest.length : Int) ≤ allocCountSum rest :=
          allocCountSum_ge_length rest
            (fun e2 he2 => (hall e2 (List.mem_cons_of_mem _ he2)).1)
        have hcnt0 : (0 : Int) ≤ cnt := by
          have := hhead.1
          omega
        have hslice_le : ((pySliceTo cnt (catLookup db cat)).length : Int) ≤ cnt :=
          pySliceTo_length_le _ _ hcnt0
        have hpl2 : ((addTracks m cat (pySliceTo cnt (catLookup db cat)) pl).length : Int)
            ≤ (pl.length : Int) + ((pySliceTo cnt (catLookup db cat)).length : Int) := by
          exact_mod_cast addTracks_length_le m cat (pySliceTo cnt (catLookup db cat)) pl
        have hsum : allocCountSum ((cat, cnt) :: rest) = cnt + allocCountSum rest := by
          simp [allocCountSum]
        rw [hsum] at hbudget
        have hnobreak :
            ¬ (m ≤ ((addTracks m cat (pySliceTo cnt (catLookup db cat)) pl).length : Int)) := by
          omega
        rw [if_neg hnobreak]
        exact ih _ (fun e2 he2 => hall e2 (List.mem_cons_of_mem _ he2)) (by omega) e hrest

theorem ratFloorOfBounds (q : ℚ) (n : Int) (h1 : (n : ℚ) ≤ q)
    (h2 : q < (n : ℚ) + 1) : Rat.floor q = n := by
  have hb : ⌊q⌋ = Rat.floor q := by rw [Rat.floor_def, Rat.floor_def']
  rw [← hb]
  exact Int.floor_eq_iff.mpr ⟨h1, by exact_mod_cast h2⟩

theorem allocLoop_cons_shape (m r : Int) (x : RankedItem) (t : List RankedItem) :
    ∃ (cnt : Int) (tail : List (String × Int)),
      allocLoop r m (x :: t) = (x.category, cnt) :: tail ∧ min 1 r ≤ cnt := by
  refine ⟨min (if t.isEmpty then max 1 r else max 1 (pyRound (x.score * (m : ℚ)))) r,
    (if r - min (if t.isEmpty then max 1 r else max 1 (pyRound (x.score * (m : ℚ)))) r ≤ 0
      then []
      else allocLoop
        (r - min (if t.isEmpty then max 1 r else max 1 (pyRound (x.score * (m : ℚ)))) r)
        m t), rfl, ?_⟩
  have hc1 : (1 : Int) ≤ (if t.isEmpty then max 1 r
      else max 1 (pyRound (x.score * (m : ℚ)))) := by
    split
    · exact le_max_left 1 _
    · exact le_max_left 1 _
  exact min_le_min hc1 (le_refl r)

theorem buildPlaylist_head_ne_nil (db : Catalog) (m : Int) (cat : String)
    (cnt : Int) (rest : List (String × Int)) (h1 : 1 ≤ cnt)
    (h2 : catLookup db cat ≠ []) :
    buildPlaylist db m ((cat, cnt) :: rest) [] ≠ [] := by
  have hslice : pySliceTo cnt (catLookup db cat) ≠ [] :=
    pySliceTo_ne_nil _ _ h1 h2
  have hmem : ∃ x, x ∈ addTracks m cat (pySliceTo cnt (catLookup db cat)) [] := by
    cases hsl : pySliceTo cnt (catLookup db cat) with
    | nil => exact absurd hsl hslice
    | cons t ts => exact ⟨tagTrack t cat, addTracks_cons_mem m cat t ts []⟩
  obtain ⟨x, hx⟩ := hmem
  simp only [buildPlaylist]
  split
  · exact List.ne_nil_of_mem hx
  · exact List.ne_nil_of_mem (buildPlaylist_mem db m rest _ x hx)

/-! ## Claim C2 — zero (or negative) surviving weight total -/

/-- C2 (counterexample): the caregiver list `[{Classical, 0}]` has surviving
weight total `0 ≤ 0`, yet the allocator returns a full six-track playlist
(the zero total is replaced by the denominator `1.0` and the last surviving
category receives the whole remaining budget), refuting the claim that a
non-positive surviving total yields an empty playlist. -/
theorem C2_counterexample :
    (get_recommended_playlist_for_user
        (fun e => if e = "u" then some [⟨"Classical", 0⟩] else none)
        MELODY_DATABASE "u" 6).length = 6
    ∧ ((survivorsRawFor MELODY_DATABASE [⟨"Classical", 0⟩]).map
        (fun r => r.score)).sum = 0 := by
  constructor
  · decide
  · rw [show survivorsRawFor MELODY_DATABASE [⟨"Classical", 0⟩]
        = [⟨"Classical", 0⟩] from by decide]
    simp

/-- C2 (amended): for a non-empty email whose entry has a non-empty
category list with surviving weights summing to a non-positive total, the
allocator does **not** return an empty playlist merely because of the
non-positive total: the playlist (with the default budget 6 over
`MELODY_DATABASE`) is empty exactly when no category survives the catalog
filter (a zero raw total is replaced by the denominator `1.0` and
allocation proceeds). -/
theorem C2_amended_thm (recs : String → Option (List RankedItem))
    (email : String) (ranked : List RankedItem)
    (h1 : email ≠ "") (h2 : recs email = some ranked) (h3 : ranked ≠ [])
    (h4 : ((survivorsRawFor MELODY_DATABASE ranked).map (fun r => r.score)).sum ≤ 0) :
    (get_recommended_playlist_for_user recs MELODY_DATABASE email 6 = []
      ↔ survivorsRawFor MELODY_DATABASE ranked = []) := by
  have hisE : ranked.isEmpty = false := by
    cases ranked with
    | nil => exact absurd rfl h3
    | cons a t => rfl
  simp only [get_recommended_playlist_for_user, if_neg h1, h2, hisE,
    Bool.false_eq_true, if_false]
  constructor
  · intro hempty
    by_contra hne
    cases hs : survivorsRawFor MELODY_DATABASE ranked with
    | nil => exact hne hs
    | cons s srest =>
        obtain ⟨cnt, tail, heq, hge⟩ := allocLoop_cons_shape 6 6
          (RankedItem.mk s.category (s.score / totalFor ranked))
          (srest.map (fun r => RankedItem.mk r.category (r.score / totalFor ranked)))
        have hAF : allocFor MELODY_DATABASE 6 ranked = (s.category, cnt) :: tail := by
          rw [allocFor, survivorsFor, hs, List.map_cons]
          exact heq
        have h1cnt : (1 : Int) ≤ cnt := by
          have : min (1 : Int) 6 = 1 := by norm_num
          omega
        have hsmem : s ∈ survivorsRawFor MELODY_DATABASE ranked := by
          rw [hs]; exact List.mem_cons_self _ _
        have hcatMem : catMem MELODY_DATABASE s.category = true :=
          (List.mem_filter.mp hsmem).2
        have hcat : catLookup MELODY_DATABASE s.category ≠ [] :=
          catMem_lookup_ne_nil _ hcatMem
        rw [hAF] at hempty
        exact buildPlaylist_head_ne_nil MELODY_DATABASE 6 s.category cnt tail
          h1cnt hcat hempty
  · intro hs
    simp [allocFor, survivorsFor, hs, allocLoop, buildPlaylist]

/-- C2 (witness): the amended theorem applied to the concrete zero-weight
list `[{Classical, 0}]`. -/
theorem C2_amended_witness :
    ("u" : String) ≠ ""
    ∧ (fun e => if e = "u" then some [(⟨"Classical", 0⟩ : RankedItem)] else none) "u"
        = some [⟨"Classical", 0⟩]
    ∧ ([(⟨"Classical", 0⟩ : RankedItem)] : List RankedItem) ≠ []
    ∧ ((survivorsRawFor MELODY_DATABASE [⟨"Classical", 0⟩]).map
        (fun r => r.score)).sum ≤ 0
    ∧ (get_recommended_playlist_for_user
          (fun e => if e = "u" then some [(⟨"Classical", 0⟩ : RankedItem)] else none)
          MELODY_DATABASE "u" 6 = []
        ↔ survivorsRawFor MELODY_DATABASE [⟨"Classical", 0⟩] = []) :=
  ⟨by decide, rfl, by decide,
   by
    rw [show survivorsRawFor MELODY_DATABASE [⟨"Classical", 0⟩]
        = [⟨"Classical", 0⟩] from by decide]
    simp,
   C2_amended_thm _ "u" [⟨"Classical", 0⟩] (by decide) rfl (by decide)
     (by
      rw [show survivorsRawFor MELODY_DATABASE [⟨"Classical", 0⟩]
          = [⟨"Classical", 0⟩] from by decide]
      simp)⟩

/-! ## Claim C4 — playlist length bound -/

/-- C4 (counterexample): with `max_tracks = -1` and a valid caregiver entry,
the returned playlist holds one track, so its length exceeds `max_tracks`
(Python's negative slice and the `max(1, remaining)` override let one track
through), refuting the claim for every `max_tracks` value. -/
theorem C4_counterexample :
    ¬ (((get_recommended_playlist_for_user
          (fun e => if e = "u" then some [⟨"Classical", 1⟩] else none)
          MELODY_DATABASE "u" (-1)).length : Int) ≤ -1) := by decide

/-- C4 (amended): for every recommendations mapping, catalog, email and
**non-negative** `max_tracks`, the returned playlist has length at most
`max_tracks` (with the default 6 as a special case). -/
theorem C4_amended_thm (recs : String → Option (List RankedItem))
    (db : Catalog) (email : String) (m : Int) (hm : 0 ≤ m) :
    ((get_recommended_playlist_for_user recs db email m).length : Int) ≤ m := by
  by_cases hemail : email = ""
  · simpa [get_recommended_playlist_for_user, hemail] using hm
  · cases hrec : recs email with
    | none => simpa [get_recommended_playlist_for_user, hemail, hrec] using hm
    | some ranked =>
        by_cases hE : ranked.isEmpty = true
        · simpa [get_recommended_playlist_for_user, hemail, hrec, hE] using hm
        · have hred : get_recommended_playlist_for_user recs db email m
              = buildPlaylist db m (allocFor db m ranked) [] := by
            simp [get_recommended_playlist_for_user, hemail, hrec, hE]
          rw [hred]
          calc ((buildPlaylist db m (allocFor db m ranked) []).length : Int)
              ≤ (([] : List PlaylistItem).length : Int)
                + ((allocFor db m ranked).map
                    (fun p => ((pySliceTo p.2 (catLookup db p.1)).length : Int))).sum :=
                buildPlaylist_length_le db m _ []
            _ ≤ m := by
                simpa [allocFor] using
                  allocLoop_slice_sum_le db m (survivorsFor db ranked) m hm

/-- C4 (witness): the amended theorem applied at the default budget 6 and a
concrete two-category caregiver list. -/
theorem C4_amended_witness :
    (0 : Int) ≤ 6
    ∧ ((get_recommended_playlist_for_user
        (fun e => if e = "u" then some [⟨"Classical", 2⟩, ⟨"Rock", 1⟩] else none)
        MELODY_DATABASE "u" 6).length : Int) ≤ 6 :=
  ⟨by decide,
   C4_amended_thm (fun e => if e = "u" then some [⟨"Classical", 2⟩, ⟨"Rock", 1⟩] else none)
     MELODY_DATABASE "u" 6 (by decide)⟩

theorem survivorsFor_map_category (db : Catalog) (ranked : List RankedItem) :
    (survivorsFor db ranked).map RankedItem.category
      = (survivorsRawFor db ranked).map RankedItem.category := by
  rw [survivorsFor, List.map_map]
  rfl

theorem allocFor_fst_eq (db : Catalog) (m : Int) (ranked : List RankedItem)
    (j : ℕ) (hj : j < (allocFor db m ranked).length)
    (hj2 : j < (survivorsRawFor db ranked).length) :
    ((allocFor db m ranked).getD j ("", 0)).1
      = ((survivorsRawFor db ranked).getD j ⟨"", 0⟩).category := by
  have hja : j < (allocLoop m m (survivorsFor db ranked)).length := hj
  have hjs : j < (survivorsFor db ranked).length := by
    simpa [survivorsFor] using hj2
  have hq := congrArg (fun l => l[j]?)
    (allocLoop_map_fst m (survivorsFor db ranked) m)
  simp only [List.getElem?_map, List.getElem?_take_of_lt hja,
    List.getElem?_eq_getElem hja, List.getElem?_eq_getElem hjs,
    Option.map_some', Option.some.injEq] at hq
  rw [List.getD_eq_getElem _ _ hj, List.getD_eq_getElem _ _ hj2]
  have hsv : ((survivorsFor db ranked)[j]).category
      = ((survivorsRawFor db ranked)[j]).category := by
    simp [survivorsFor, List.getElem_map]
  rw [← hsv]
  exact hq

/-! ## Claim C5 — every surviving category contributes a track -/

/-- C5: over the fixed `MELODY_DATABASE` catalog with the default budget 6,
every caregiver entry that survives the catalog filter with a strictly
positive raw weight contributes at least one track of its category to the
returned playlist — unless the allocation loop stopped before reaching it,
which only happens when the earlier categories already consumed the whole
budget (the allocated counts then sum to exactly 6). -/
theorem C5_thm (recs : String → Option (List RankedItem)) (email : String)
    (ranked : List RankedItem) (j : ℕ)
    (h1 : email ≠ "") (h2 : recs email = some ranked)
    (hj : j < (survivorsRawFor MELODY_DATABASE ranked).length)
    (hw : 0 < ((survivorsRawFor MELODY_DATABASE ranked).getD j ⟨"", 0⟩).score) :
    (∃ x ∈ get_recommended_playlist_for_user recs MELODY_DATABASE email 6,
        x.category = ((survivorsRawFor MELODY_DATABASE ranked).getD j ⟨"", 0⟩).category)
    ∨ ((allocFor MELODY_DATABASE 6 ranked).length ≤ j
        ∧ allocCountSum (allocFor MELODY_DATABASE 6 ranked) = 6) := by
  have hrne : ranked ≠ [] := by
    intro h0
    rw [h0] at hj
    simp [survivorsRawFor] at hj
  have hisE : ranked.isEmpty = false := by
    cases ranked with
    | nil => exact absurd rfl hrne
    | cons a t => rfl
  have hmain : get_recommended_playlist_for_user recs MELODY_DATABASE email 6
      = buildPlaylist MELODY_DATABASE 6 (allocFor MELODY_DATABASE 6 ranked) [] := by
    simp [get_recommended_playlist_for_user, h1, h2, hisE]
  by_cases hlt : j < (allocFor MELODY_DATABASE 6 ranked).length
  · left
    have hmem : (allocFor MELODY_DATABASE 6 ranked).getD j ("", 0)
        ∈ allocFor MELODY_DATABASE 6 ranked := by
      rw [List.getD_eq_getElem _ _ hlt]
      exact List.getElem_mem _
    have hall : ∀ e ∈ allocFor MELODY_DATABASE 6 ranked,
        1 ≤ e.2 ∧ catLookup MELODY_DATABASE e.1 ≠ [] := by
      intro e he
      constructor
      · exact allocLoop_count_pos 6 (survivorsFor MELODY_DATABASE ranked) 6
          (by norm_num) e he
      · have hfst : e.1 ∈ (survivorsFor MELODY_DATABASE ranked).map RankedItem.category :=
          allocLoop_mem_fst 6 _ 6 e he
        rw [survivorsFor_map_category] at hfst
        obtain ⟨s, hs, hseq⟩ := List.mem_map.mp hfst
        have hcatMem : catMem MELODY_DATABASE s.category = true :=
          (List.mem_filter.mp hs).2
        rw [← hseq]
        exact catMem_lookup_ne_nil _ hcatMem
    have hbudget : ((([] : List PlaylistItem)).length : Int)
        + allocCountSum (allocFor MELODY_DATABASE 6 ranked) ≤ 6 := by
      have := allocLoop_sum_le 6 (survivorsFor MELODY_DATABASE ranked) 6 (by norm_num)
      simpa [allocFor] using this
    obtain ⟨x, hx, hxcat⟩ := buildPlaylist_contains MELODY_DATABASE 6
      (allocFor MELODY_DATABASE 6 ranked) [] hall hbudget _ hmem
    refine ⟨x, ?_, ?_⟩
    · rw [hmain]; exact hx
    · rw [hxcat]
      exact allocFor_fst_eq MELODY_DATABASE 6 ranked j hlt hj
  · right
    have hlenEq : (survivorsFor MELODY_DATABASE ranked).length
        = (survivorsRawFor MELODY_DATABASE ranked).length := by
      simp [survivorsFor]
    have hlen : (allocFor MELODY_DATABASE 6 ranked).length
        < (survivorsFor MELODY_DATABASE ranked).length := by
      omega
    exact ⟨by omega,
      allocLoop_sum_eq_of_short 6 (survivorsFor MELODY_DATABASE ranked) 6 hlen⟩

/-- C5 (witness): the theorem applied to the single surviving category
`{Classical, 1}` at index 0. -/
theorem C5_witness :
    ("u" : String) ≠ ""
    ∧ (fun e => if e = "u" then some [(⟨"Classical", 1⟩ : RankedItem)] else none) "u"
        = some [⟨"Classical", 1⟩]
    ∧ 0 < (survivorsRawFor MELODY_DATABASE [⟨"Classical", 1⟩]).length
    ∧ 0 < ((survivorsRawFor MELODY_DATABASE [⟨"Classical", 1⟩]).getD 0 ⟨"", 0⟩).score
    ∧ ((∃ x ∈ get_recommended_playlist_for_user
          (fun e => if e = "u" then some [(⟨"Classical", 1⟩ : RankedItem)] else none)
          MELODY_DATABASE "u" 6,
          x.category
            = ((survivorsRawFor MELODY_DATABASE [⟨"Classical", 1⟩]).getD 0 ⟨"", 0⟩).category)
      ∨ ((allocFor MELODY_DATABASE 6 [⟨"Classical", 1⟩]).length ≤ 0
          ∧ allocCountSum (allocFor MELODY_DATABASE 6 [⟨"Classical", 1⟩]) = 6)) :=
  ⟨by decide, rfl, by decide,
   by
    rw [show (survivorsRawFor MELODY_DATABASE [(⟨"Classical", 1⟩ : RankedItem)]).getD 0 ⟨"", 0⟩
        = ⟨"Classical", 1⟩ from by rfl]
    exact (by norm_num : (0 : ℚ) < 1),
   C5_thm _ "u" [⟨"Classical", 1⟩] 0 (by decide) rfl (by decide)
     (by
      rw [show (survivorsRawFor MELODY_DATABASE [(⟨"Classical", 1⟩ : RankedItem)]).getD 0 ⟨"", 0⟩
          = ⟨"Classical", 1⟩ from by rfl]
      exact (by norm_num : (0 : ℚ) < 1))⟩

/-! ## Claim C3 — processing order of categories -/

/-- C3 (amended): the allocator processes the surviving categories in the
caregiver's original list order — it performs no sort by weight: the
playlist is built from the allocation list, whose category sequence is an
order-preserving prefix (a `take`) of the surviving categories exactly as
the caregiver listed them. -/
theorem C3_amended_thm (recs : String → Option (List RankedItem)) (db : Catalog)
    (email : String) (ranked : List RankedItem) (m : Int)
    (h1 : email ≠ "") (h2 : recs email = some ranked) (h3 : ranked ≠ []) :
    get_recommended_playlist_for_user recs db email m
      = buildPlaylist db m (allocFor db m ranked) []
    ∧ (allocFor db m ranked).map Prod.fst
      = ((survivorsRawFor db ranked).map RankedItem.category).take
          (allocFor db m ranked).length := by
  have hisE : ranked.isEmpty = false := by
    cases ranked with
    | nil => exact absurd rfl h3
    | cons a t => rfl
  constructor
  · simp [get_recommended_playlist_for_user, h1, h2, hisE]
  · rw [← survivorsFor_map_category]
    exact allocLoop_map_fst m (survivorsFor db ranked) m

/-- C3 (witness): the amended theorem applied at the concrete caregiver
list `[{Rock, 1}, {Classical, 3}]` with the default budget. -/
theorem C3_amended_witness :
    ("u" : String) ≠ ""
    ∧ (fun e => if e = "u"
        then some [(⟨"Rock", 1⟩ : RankedItem), ⟨"Classical", 3⟩] else none) "u"
        = some [⟨"Rock", 1⟩, ⟨"Classical", 3⟩]
    ∧ ([(⟨"Rock", 1⟩ : RankedItem), ⟨"Classical", 3⟩] : List RankedItem) ≠ []
    ∧ (get_recommended_playlist_for_user
        (fun e => if e = "u"
          then some [(⟨"Rock", 1⟩ : RankedItem), ⟨"Classical", 3⟩] else none)
        MELODY_DATABASE "u" 6
        = buildPlaylist MELODY_DATABASE 6
            (allocFor MELODY_DATABASE 6 [⟨"Rock", 1⟩, ⟨"Classical", 3⟩]) []
      ∧ (allocFor MELODY_DATABASE 6 [⟨"Rock", 1⟩, ⟨"Classical", 3⟩]).map Prod.fst
        = ((survivorsRawFor MELODY_DATABASE [⟨"Rock", 1⟩, ⟨"Classical", 3⟩]).map
            RankedItem.category).take
            (allocFor MELODY_DATABASE 6 [⟨"Rock", 1⟩, ⟨"Classical", 3⟩]).length) :=
  ⟨by decide, rfl, by decide,
   C3_amended_thm _ MELODY_DATABASE "u" [⟨"Rock", 1⟩, ⟨"Classical", 3⟩] 6
     (by decide) rfl (by decide)⟩

/-- C3 (counterexample): with caregiver list `[{Rock, 1}, {Classical, 3}]`
the playlist starts with Rock tracks although Classical has the larger
weight: the allocator follows the caregiver's list order, refuting the
descending-weight processing order (which would fill Classical first). -/
theorem C3_counterexample :
    (get_recommended_playlist_for_user
        (fun e => if e = "u" then some [⟨"Rock", 1⟩, ⟨"Classical", 3⟩] else none)
        MELODY_DATABASE "u" 6).map (fun p => p.category)
      = ["Rock", "Rock", "Classical", "Classical", "Classical", "Classical"]
    ∧ (1 : ℚ) < 3 := by
  have htot : totalFor [(⟨"Rock", 1⟩ : RankedItem), ⟨"Classical", 3⟩] = 4 := by
    norm_num [totalFor, rawTotal]
  have hsurv : survivorsFor MELODY_DATABASE [(⟨"Rock", 1⟩ : RankedItem), ⟨"Classical", 3⟩]
      = [⟨"Rock", 1/4⟩, ⟨"Classical", 3/4⟩] := by
    rw [survivorsFor,
      show survivorsRawFor MELODY_DATABASE [(⟨"Rock", 1⟩ : RankedItem), ⟨"Classical", 3⟩]
        = [⟨"Rock", 1⟩, ⟨"Classical", 3⟩] from by rfl,
      htot]
    norm_num
  have harg : ((1 : ℚ)/4 * ((6 : Int) : ℚ)) = 3/2 := by push_cast; norm_num
  have hfl : Rat.floor ((3 : ℚ)/2) = 1 := ratFloorOfBounds _ 1 (by norm_num) (by norm_num)
  have hround : pyRound ((1 : ℚ)/4 * ((6 : Int) : ℚ)) = 2 := by
    rw [harg]
    simp only [pyRound, hfl]
    norm_num
  have halloc : allocFor MELODY_DATABASE 6 [(⟨"Rock", 1⟩ : RankedItem), ⟨"Classical", 3⟩]
      = [("Rock", 2), ("Classical", 4)] := by
    rw [allocFor, hsurv]
    simp only [allocLoop, List.isEmpty_cons, List.isEmpty_nil]
    rw [hround]
    decide
  constructor
  · have hmain : get_recommended_playlist_for_user
        (fun e => if e = "u" then some [⟨"Rock", 1⟩, ⟨"Classical", 3⟩] else none)
        MELODY_DATABASE "u" 6
        = buildPlaylist MELODY_DATABASE 6
            (allocFor MELODY_DATABASE 6 [⟨"Rock", 1⟩, ⟨"Classical", 3⟩]) [] := by
      simp [get_recommended_playlist_for_user]
    rw [hmain, halloc]
    decide
  · norm_num
